import Mathlib

/-!
Verification of the beat-scheduler core of the `commotie-beat` repository
(`src/js/ui-manager.js`, class `TimerManager`, together with the BPM bounds
used by its callers in `src/js/app.js`).

The JavaScript source is shallowly embedded: clock times, tempos and beat
intervals are rationals (`ℚ`), beat counts are naturals, and the mutable
`TimerManager` object becomes an explicit `TimerState` record transformed by
pure functions that mirror the methods of the source one by one.  JavaScript
arithmetic that matters to the claims (`Math.ceil`, `Math.round`, `%` on
possibly negative operands, division by zero producing `Infinity`/`NaN`) is
modelled explicitly.
-/

/-- JavaScript `Math.round`: round half toward positive infinity. -/
def jsRound (q : ℚ) : ℤ := ⌊q + 1/2⌋

/-- JavaScript truncation toward zero (used by the `%` operator). -/
def jsTrunc (q : ℚ) : ℤ := if 0 ≤ q then ⌊q⌋ else ⌈q⌉

/-- JavaScript `%` (remainder): `a % b = a - b * trunc(a / b)`; the result has
the sign of the dividend `a`. -/
def jsMod (a b : ℚ) : ℚ := a - b * jsTrunc (a / b)

/-- `Math.max(lo, Math.min(hi, x))`, the clamping pattern used throughout the
source. -/
def jsClamp (lo hi x : ℚ) : ℚ := max lo (min hi x)

/-- A JavaScript number as far as the required-tempo computation is concerned:
an ordinary (finite) value, `Infinity`, `-Infinity`, or `NaN`. -/
inductive JSNum where
  | num (q : ℚ)
  | posInf
  | negInf
  | nan
deriving DecidableEq, Repr

/-- JavaScript division `a / b`, including the division-by-zero behaviour:
`x/0` is `Infinity` for `x > 0`, `-Infinity` for `x < 0` and `NaN` for `x = 0`. -/
def jsDiv (a b : ℚ) : JSNum :=
  if b = 0 then
    if a = 0 then .nan else if 0 < a then .posInf else .negInf
  else .num (a / b)

/-- `Math.round` lifted to `JSNum`: infinities and `NaN` are fixed points. -/
def JSNum.round : JSNum → JSNum
  | .num q => .num ((jsRound q : ℤ) : ℚ)
  | x => x

/-- `Math.min(a, x)` for a finite first argument `a`. -/
def JSNum.jsMin (a : ℚ) : JSNum → JSNum
  | .num q => .num (min a q)
  | .posInf => .num a
  | .negInf => .negInf
  | .nan => .nan

/-- `Math.max(a, x)` for a finite first argument `a`. -/
def JSNum.jsMax (a : ℚ) : JSNum → JSNum
  | .num q => .num (max a q)
  | .posInf => .posInf
  | .negInf => .num a
  | .nan => .nan

/-- Whether a JavaScript number is an ordinary finite value. -/
def JSNum.isFinite : JSNum → Bool
  | .num _ => true
  | _ => false

/-- The lower BPM bound enforced by the `TimerManager` call sites
(`setToRequiredBpm`, `divideBpm`, the start-form validation and the slider in
`app.js`). -/
def MIN_BPM : ℚ := 30

/-- The upper BPM bound enforced by the `TimerManager` call sites. -/
def MAX_BPM : ℚ := 200

/-- The lookahead window (`this.lookaheadTime = 0.5` in the constructor). -/
def lookaheadTime : ℚ := 1/2

/-- One scheduled beat: `{ time: this.nextBeatTime, beatNumber: ... }` as pushed
by `scheduleBeats` into `scheduledBeats` / `scheduledVisualBeats`. -/
structure Beat where
  time : ℚ
  beatNumber : ℤ
deriving DecidableEq, Repr

/-- The mutable state of a `TimerManager` object (constructor,
`ui-manager.js:1334-1362`).  Timer handles (`animationFrameId`,
`timerInterval`, `disableTimeout`) are modelled as booleans recording whether
the corresponding callback is armed. -/
structure TimerState where
  countdown : ℕ
  originalCountdown : ℕ
  targetDurationMinutes : ℕ
  remainingTimeSeconds : ℤ
  bpm : ℚ
  isRunning : Bool
  scheduledBeats : List Beat
  scheduledVisualBeats : List Beat
  nextBeatTime : ℚ
  beatInterval : ℚ
  startTime : ℚ
  isDisabled : Bool
  animationFrame : Bool
  timerInterval : Bool
  disableTimeout : Bool
deriving DecidableEq, Repr

/-- The constructor's initial field values. -/
def initTimerState : TimerState :=
  { countdown := 0
    originalCountdown := 0
    targetDurationMinutes := 30
    remainingTimeSeconds := 0
    bpm := 120
    isRunning := false
    scheduledBeats := []
    scheduledVisualBeats := []
    nextBeatTime := 0
    beatInterval := 0
    startTime := 0
    isDisabled := false
    animationFrame := false
    timerInterval := false
    disableTimeout := false }

/-- `calculateRequiredBeats` (`ui-manager.js:1394-1396`):
`Math.ceil((this.remainingTimeSeconds * this.bpm) / 60)`. -/
def calculateRequiredBeats (remainingTimeSeconds bpm : ℚ) : ℤ :=
  ⌈remainingTimeSeconds * bpm / 60⌉

/-- The `while` loop of `scheduleBeats` (`ui-manager.js:1427-1451`), recursing
on `countdown`, which the loop body decrements on every iteration (so the
recursion depth is exactly the JavaScript loop's iteration count).  Arguments:
schedule end time, beat interval, `originalCountdown`, current `countdown`,
current `nextBeatTime` and the queue being appended to.  Returns the new
`countdown`, the new `nextBeatTime`, the extended queue, and the number of
iterations performed. -/
def scheduleBeatsAux (endT interval : ℚ) (orig : ℕ) (c : ℕ) (t : ℚ)
    (q : List Beat) : ℕ × ℚ × List Beat × ℕ :=
  if h : t < endT ∧ 0 < c then
    let r := scheduleBeatsAux endT interval orig (c - 1) (t + interval)
      (q ++ [⟨t, (orig : ℤ) - c + 1⟩])
    (r.1, r.2.1, r.2.2.1, r.2.2.2 + 1)
  else (c, t, q, 0)
termination_by c
decreasing_by exact Nat.sub_lt h.2 Nat.one_pos

/-- `scheduleBeats` (`ui-manager.js:1419-1452`): fill the lookahead window.
The single JavaScript loop pushes the same beat to both queues; here the same
deterministic loop is applied to each queue. -/
def scheduleBeats (now : ℚ) (st : TimerState) : TimerState :=
  let endT := now + lookaheadTime
  let r := scheduleBeatsAux endT st.beatInterval st.originalCountdown
    st.countdown st.nextBeatTime st.scheduledBeats
  let rv := scheduleBeatsAux endT st.beatInterval st.originalCountdown
    st.countdown st.nextBeatTime st.scheduledVisualBeats
  { st with countdown := r.1, nextBeatTime := r.2.1,
            scheduledBeats := r.2.2.1, scheduledVisualBeats := rv.2.2.1 }

/-- `startTimer` (`ui-manager.js:1401-1414`): initialize the beat clock and
arm the animation-frame loop.  The two `getCurrentTime()` reads during start
are modelled as the single instant `now`. -/
def startTimer (now : ℚ) (st : TimerState) : TimerState :=
  let st := { st with beatInterval := 60 / st.bpm, startTime := now,
                      nextBeatTime := now }
  let st := scheduleBeats now st
  { st with animationFrame := true }

/-- `startCountdownTimer` (`ui-manager.js:1497-1507`): arm the one-second
display interval. -/
def startCountdownTimer (st : TimerState) : TimerState :=
  { st with timerInterval := true }

/-- One firing of the one-second interval callback installed by
`startCountdownTimer`: decrement `remainingTimeSeconds` and stop the interval
once it is `<= 0`. -/
def timerTick (st : TimerState) : TimerState :=
  if st.timerInterval then
    let r := st.remainingTimeSeconds - 1
    if r ≤ 0 then { st with remainingTimeSeconds := r, timerInterval := false }
    else { st with remainingTimeSeconds := r }
  else st

/-- `startCountdown` (`ui-manager.js:1367-1389`). -/
def startCountdown (targetDurationMinutes : ℕ) (initialBpm : ℚ) (now : ℚ)
    (st : TimerState) : TimerState :=
  let st := { st with targetDurationMinutes := targetDurationMinutes,
                      remainingTimeSeconds := (targetDurationMinutes : ℤ) * 60,
                      bpm := initialBpm }
  let c := (calculateRequiredBeats ((targetDurationMinutes : ℚ) * 60) st.bpm).toNat
  let st := { st with countdown := c, originalCountdown := c, isRunning := true }
  startCountdownTimer (startTimer now st)

/-- `stopCountdown` (`ui-manager.js:1512-1532`): cancel the animation frame,
the display interval and the disable timeout; clear `isRunning` and
`isDisabled`.  The queues are left untouched. -/
def stopCountdown (st : TimerState) : TimerState :=
  { st with animationFrame := false, timerInterval := false,
            disableTimeout := false, isRunning := false, isDisabled := false }

/-- `resumeCountdown` (`ui-manager.js:1537-1555`): guarded only by
`countdown > 0`; re-initializes the beat clock, clears both queues, refills and
re-arms both loops. -/
def resumeCountdown (now : ℚ) (st : TimerState) : TimerState :=
  if 0 < st.countdown then
    let st := { st with isRunning := true, beatInterval := 60 / st.bpm,
                        startTime := now, nextBeatTime := now,
                        scheduledBeats := [], scheduledVisualBeats := [] }
    startCountdownTimer (startTimer now st)
  else st

/-- `updateBpm` (`ui-manager.js:1578-1601`): set `bpm`; while running also
recompute `beatInterval`, clear both queues, and recompute `nextBeatTime` from
the last scheduled beat using the JavaScript `%` operator. -/
def updateBpm (newBpm : ℚ) (now : ℚ) (st : TimerState) : TimerState :=
  let st := { st with bpm := newBpm }
  if st.isRunning then
    let oldBeatInterval := st.beatInterval
    let interval := 60 / st.bpm
    let timeSinceLastBeat := now - (st.nextBeatTime - oldBeatInterval)
    { st with beatInterval := interval,
              scheduledBeats := [], scheduledVisualBeats := [],
              nextBeatTime := now + (interval - jsMod timeSinceLastBeat interval) }
  else st

/-- `calculateRequiredBpm` (`ui-manager.js:1606-1608`):
`Math.round((this.countdown * 60) / this.remainingTimeSeconds)`, with the
JavaScript division-by-zero behaviour made explicit. -/
def calculateRequiredBpm (countdown : ℕ) (remainingTimeSeconds : ℚ) : JSNum :=
  (jsDiv ((countdown : ℚ) * 60) remainingTimeSeconds).round

/-- The value computed and returned by `setToRequiredBpm`
(`ui-manager.js:1613-1619`): `Math.max(30, Math.min(200, requiredBpm))`. -/
def setToRequiredBpm (countdown : ℕ) (remainingTimeSeconds : ℚ) : JSNum :=
  ((calculateRequiredBpm countdown remainingTimeSeconds).jsMin 200).jsMax 30

/-- `multiplyBpm` (`ui-manager.js:1624-1628`): returns the new BPM
`Math.min(200, this.bpm * 2)` and applies `updateBpm`. -/
def multiplyBpm (now : ℚ) (st : TimerState) : ℚ × TimerState :=
  let newBpm := min 200 (st.bpm * 2)
  (newBpm, updateBpm newBpm now st)

/-- `divideBpm` (`ui-manager.js:1633-1637`): returns the new BPM
`Math.max(30, Math.round(this.bpm / 2))` and applies `updateBpm`. -/
def divideBpm (now : ℚ) (st : TimerState) : ℚ × TimerState :=
  let newBpm := max 30 ((jsRound (st.bpm / 2) : ℤ) : ℚ)
  (newBpm, updateBpm newBpm now st)

/-- `disableTimer` (`ui-manager.js:1696-1724`): no-op unless running and not
already disabled; otherwise cancel the animation frame, clear both queues,
keep the one-second interval running, and arm the 5-second re-enable
timeout. -/
def disableTimer (st : TimerState) : TimerState :=
  if st.isRunning = false ∨ st.isDisabled = true then st
  else
    { st with isDisabled := true, animationFrame := false,
              scheduledBeats := [], scheduledVisualBeats := [],
              disableTimeout := true }

/-- `resumeBeatScheduling` (`ui-manager.js:1751-1763`): recompute the beat
interval and phase-align `nextBeatTime` to the grid anchored at `startTime`,
then re-arm the animation-frame loop. -/
def resumeBeatScheduling (now : ℚ) (st : TimerState) : TimerState :=
  let interval := 60 / st.bpm
  let timeSinceLastBeat := jsMod (now - st.startTime) interval
  { st with beatInterval := interval,
            nextBeatTime := now + (interval - timeSinceLastBeat),
            animationFrame := true }

/-- `enableTimer` (`ui-manager.js:1729-1746`): no-op unless disabled;
otherwise clear the disabled flag and timeout and resume beat scheduling. -/
def enableTimer (now : ℚ) (st : TimerState) : TimerState :=
  if st.isDisabled = false then st
  else
    let st := { st with isDisabled := false, disableTimeout := false }
    resumeBeatScheduling now st

/-- The head-drain loop of `schedulerLoop` (`ui-manager.js:1464-1478`):
pop queue entries from the front while `queue[0].time <= currentTime`.
Returns the released events (in release order) and the remaining queue. -/
def drainDue (now : ℚ) : List Beat → List Beat × List Beat
  | [] => ([], [])
  | b :: rest =>
    if b.time ≤ now then
      let r := drainDue now rest
      (b :: r.1, r.2)
    else ([], b :: rest)

/-- A whole run of the scheduler: the `TimerManager` state plus the
observable history — the audio beats released so far, the number of times the
completion callback has fired, and the largest clock value read so far. -/
structure SchedulerRun where
  st : TimerState
  released : List Beat
  completions : ℕ
  lastNow : ℚ
deriving DecidableEq, Repr

/-- One invocation of `schedulerLoop` (`ui-manager.js:1458-1492`) at clock
time `t`.  The callback only runs while the animation frame is armed; it
returns immediately when not running; otherwise it drains both queues, then
either completes (`countdown <= 0`: `stopCountdown` + `showCompletion`) or
refills the lookahead window and re-arms itself. -/
def schedulerLoop (t : ℚ) (s : SchedulerRun) : SchedulerRun :=
  if s.st.animationFrame = false then s
  else if s.st.isRunning = false then
    { s with st := { s.st with animationFrame := false } }
  else
    let dv := drainDue t s.st.scheduledVisualBeats
    let da := drainDue t s.st.scheduledBeats
    let st : TimerState :=
      { s.st with scheduledVisualBeats := dv.2, scheduledBeats := da.2,
                  animationFrame := false }
    let released := s.released ++ da.1
    if st.countdown = 0 then
      { st := stopCountdown st, released := released,
        completions := s.completions + 1, lastNow := t }
    else
      let st := scheduleBeats t st
      { st := { st with animationFrame := true }, released := released,
        completions := s.completions, lastNow := t }

/-- Run the scheduler loop at each clock time in the list, in order. -/
def runFrames (ts : List ℚ) (s : SchedulerRun) : SchedulerRun :=
  ts.foldl (fun s t => schedulerLoop t s) s

/-- A fresh session started at clock time `t` from the constructor state. -/
def startSys (d : ℕ) (b t : ℚ) : SchedulerRun :=
  { st := startCountdown d b t initTimerState, released := [], completions := 0,
    lastNow := t }

/-- A tempo change applied at clock time `t`. -/
def updateBpmSys (b t : ℚ) (s : SchedulerRun) : SchedulerRun :=
  { s with st := updateBpm b t s.st, lastNow := t }

/-- A stop request (`stopCountdown` reads no clock). -/
def stopSys (s : SchedulerRun) : SchedulerRun :=
  { s with st := stopCountdown s.st }

/-- A resume request at clock time `t`. -/
def resumeSys (t : ℚ) (s : SchedulerRun) : SchedulerRun :=
  { s with st := resumeCountdown t s.st, lastNow := t }

/-- A suppression request at clock time `t`. -/
def disableSys (t : ℚ) (s : SchedulerRun) : SchedulerRun :=
  { s with st := disableTimer s.st, lastNow := t }

/-- A re-enable (suppression timeout) at clock time `t`. -/
def enableSys (t : ℚ) (s : SchedulerRun) : SchedulerRun :=
  { s with st := enableTimer t s.st, lastNow := t }

/-- A one-second display tick (reads no audio clock). -/
def tickSys (s : SchedulerRun) : SchedulerRun :=
  { s with st := timerTick s.st }

/-- States reachable from one session start by the operations named in the
specification: fill and release happen inside `schedulerLoop` frames; tempo
changes carry the `[MIN_BPM, MAX_BPM]` bound enforced by every caller of
`updateBpm` in `app.js`; `resume` is invoked by `toggleStopResume` only when
the session is not running; the monotonic clock is strictly increasing across
operations. -/
inductive Reach : SchedulerRun → Prop where
  | start (d : ℕ) (b t : ℚ) : 1 ≤ d → d ≤ 999 → MIN_BPM ≤ b → b ≤ MAX_BPM →
      Reach (startSys d b t)
  | frame {s} (t : ℚ) : Reach s → s.lastNow < t → Reach (schedulerLoop t s)
  | tempo {s} (b t : ℚ) : Reach s → s.lastNow < t → MIN_BPM ≤ b → b ≤ MAX_BPM →
      Reach (updateBpmSys b t s)
  | stop {s} : Reach s → Reach (stopSys s)
  | resume {s} (t : ℚ) : Reach s → s.lastNow < t → s.st.isRunning = false →
      Reach (resumeSys t s)
  | disable {s} (t : ℚ) : Reach s → s.lastNow < t → Reach (disableSys t s)
  | enable {s} (t : ℚ) : Reach s → s.lastNow < t → Reach (enableSys t s)
  | tick {s} : Reach s → Reach (tickSys s)

/-- The invariant maintained by every operation of a single session: the
pending (audio) queue is strictly ascending in both scheduled time and beat
index, all queued times lie strictly below `nextBeatTime`, queued indices lie
strictly below the next index to be assigned, the released history is strictly
ascending in scheduled time, bounded by the last clock reading, and strictly
below every queued and future beat time. -/
structure SchedInv (s : SchedulerRun) : Prop where
  bpm_pos : 0 < s.st.bpm
  int_pos : s.st.isRunning = true → 0 < s.st.beatInterval
  arm_run : s.st.animationFrame = true → s.st.isRunning = true
  dis_run : s.st.isDisabled = true → s.st.isRunning = true
  dis_arm : s.st.isDisabled = true → s.st.animationFrame = false
  dis_q : s.st.isDisabled = true → s.st.scheduledBeats = []
  q_times : s.st.scheduledBeats.Pairwise (fun a b => a.time < b.time)
  q_idx : s.st.scheduledBeats.Pairwise (fun a b => a.beatNumber < b.beatNumber)
  q_next : ∀ b ∈ s.st.scheduledBeats, b.time < s.st.nextBeatTime
  q_idx_ub : ∀ b ∈ s.st.scheduledBeats,
    b.beatNumber ≤ (s.st.originalCountdown : ℤ) - s.st.countdown
  rel_times : s.released.Pairwise (fun a b => a.time < b.time)
  rel_now : ∀ b ∈ s.released, b.time ≤ s.lastNow
  rel_next : ∀ b ∈ s.released, b.time < s.st.nextBeatTime
  rel_q : ∀ r ∈ s.released, ∀ b ∈ s.st.scheduledBeats, r.time < b.time

/-- Bookkeeping for the completion callback: it has fired at most once, never
while the loop is still armed, and only with the countdown exhausted. -/
structure OnceInv (s : SchedulerRun) : Prop where
  le_one : s.completions ≤ 1
  armed_zero : s.st.animationFrame = true → s.completions = 0
  comp_state : s.completions = 1 →
    s.st.countdown = 0 ∧ s.st.animationFrame = false

def scenFrames (k : ℕ) : List ℚ := (List.range k).map (fun j => (j : ℚ) + 3/5)

def scenState (k : ℕ) : SchedulerRun :=
  { st := { countdown := 58 - k, originalCountdown := 60,
            targetDurationMinutes := 1, remainingTimeSeconds := 60,
            bpm := 60, isRunning := true,
            scheduledBeats := [⟨(k : ℚ) + 1, (k : ℤ) + 2⟩],
            scheduledVisualBeats := [⟨(k : ℚ) + 1, (k : ℤ) + 2⟩],
            nextBeatTime := (k : ℚ) + 2, beatInterval := 1, startTime := 0,
            isDisabled := false, animationFrame := true,
            timerInterval := true, disableTimeout := false },
    released := (List.range (k + 1)).map
      (fun (j : ℕ) => (⟨(j : ℚ), (j : ℤ) + 1⟩ : Beat)),
    completions := 0, lastNow := (k : ℚ) + 3/5 }

/-- A realistic frame schedule for `start(1, 60)`: one frame shortly after
each beat, with the last two frames 60Hz-style close together around the
moment the final beat enters the lookahead window. -/
def c3Frames : List ℚ := scenFrames 59 ++ [294/5]


/-! ### Arithmetic facts about the JavaScript `%` operator -/

lemma jsMod_floor_case (a b : ℚ) (hb : b ≠ 0) :
    a - b * (⌊a / b⌋ : ℤ) = b * Int.fract (a / b) := by
  rw [Int.fract, mul_sub, mul_div_cancel₀ a hb]

lemma jsMod_ceil_case (a b : ℚ) (hb : b ≠ 0) :
    a - b * (⌈a / b⌉ : ℤ) = b * (a / b - (⌈a / b⌉ : ℤ)) := by
  rw [mul_sub, mul_div_cancel₀ a hb]

/-- For a positive divisor the JavaScript remainder is strictly below the
divisor. -/
lemma jsMod_lt (a b : ℚ) (hb : 0 < b) : jsMod a b < b := by
  unfold jsMod jsTrunc
  have hb' : b ≠ 0 := ne_of_gt hb
  split
  · rw [jsMod_floor_case a b hb']
    calc b * Int.fract (a / b) < b * 1 :=
      (mul_lt_mul_left hb).mpr (Int.fract_lt_one _)
    _ = b := mul_one b
  · rw [jsMod_ceil_case a b hb']
    have h1 : a / b - (⌈a / b⌉ : ℤ) ≤ 0 := sub_nonpos.mpr (Int.le_ceil _)
    calc b * (a / b - (⌈a / b⌉ : ℤ)) ≤ 0 :=
      mul_nonpos_of_nonneg_of_nonpos (le_of_lt hb) h1
    _ < b := hb

/-- For a positive divisor the JavaScript remainder is strictly above the
negated divisor. -/
lemma neg_lt_jsMod (a b : ℚ) (hb : 0 < b) : -b < jsMod a b := by
  unfold jsMod jsTrunc
  have hb' : b ≠ 0 := ne_of_gt hb
  split
  · rw [jsMod_floor_case a b hb']
    have h1 : 0 ≤ b * Int.fract (a / b) :=
      mul_nonneg (le_of_lt hb) (Int.fract_nonneg _)
    linarith
  · rw [jsMod_ceil_case a b hb']
    have h1 : -1 < a / b - (⌈a / b⌉ : ℤ) := by
      have := Int.ceil_lt_add_one (a / b)
      linarith
    nlinarith

/-- For a nonnegative dividend and positive divisor the JavaScript remainder
is nonnegative. -/
lemma jsMod_nonneg (a b : ℚ) (ha : 0 ≤ a) (hb : 0 < b) : 0 ≤ jsMod a b := by
  unfold jsMod jsTrunc
  have hb' : b ≠ 0 := ne_of_gt hb
  have hq : 0 ≤ a / b := div_nonneg ha (le_of_lt hb)
  rw [if_pos hq, jsMod_floor_case a b hb']
  exact mul_nonneg (le_of_lt hb) (Int.fract_nonneg _)

/-! ### The drain loop -/

/-- `drainDue` releases exactly the longest head segment of due events and
keeps the rest: the head-drain loop of `schedulerLoop`. -/
lemma drainDue_eq (now : ℚ) (q : List Beat) :
    drainDue now q = (q.takeWhile (fun b => decide (b.time ≤ now)),
                      q.dropWhile (fun b => decide (b.time ≤ now))) := by
  induction q with
  | nil => rfl
  | cons b rest ih =>
      unfold drainDue
      by_cases h : b.time ≤ now
      · simp [List.takeWhile_cons, List.dropWhile_cons, h, ih]
      · simp [List.takeWhile_cons, List.dropWhile_cons, h]

lemma drainDue_append (now : ℚ) (q : List Beat) :
    (drainDue now q).1 ++ (drainDue now q).2 = q := by
  rw [drainDue_eq]
  exact List.takeWhile_append_dropWhile _ _

lemma drainDue_released_le (now : ℚ) (q : List Beat) :
    ∀ b ∈ (drainDue now q).1, b.time ≤ now := by
  intro b hb
  rw [drainDue_eq] at hb
  simpa using List.mem_takeWhile_imp hb

/-! ### Closed form of the fill loop -/

/-- Exact characterization of the `scheduleBeats` loop: for some iteration
count `n` bounded by the entry countdown, the loop appends the `n` beats at
`nextBeatTime + i * interval` with consecutive 1-based indices starting at
`originalCountdown - countdown + 1`, decrements the countdown by `n`, advances
`nextBeatTime` by `n * interval`, schedules only inside the lookahead window,
and stops exactly when the countdown is exhausted or the window is full. -/
lemma scheduleBeatsAux_spec (endT interval : ℚ) (orig : ℕ) :
    ∀ (c : ℕ) (t : ℚ) (q : List Beat),
    ∃ n, n ≤ c ∧
      scheduleBeatsAux endT interval orig c t q =
        (c - n, t + n * interval,
         q ++ (List.range n).map
           (fun i => ⟨t + i * interval, (orig : ℤ) - c + 1 + i⟩), n) ∧
      (∀ i < n, t + i * interval < endT) ∧
      (c - n = 0 ∨ ¬ (t + n * interval < endT)) := by
  intro c
  induction c with
  | zero =>
    intro t q
    refine ⟨0, le_refl 0, ?_, ?_, Or.inl rfl⟩
    · rw [scheduleBeatsAux, dif_neg (by simp)]
      simp
    · intro i hi
      exact absurd hi (Nat.not_lt_zero i)
  | succ k ih =>
    intro t q
    by_cases h : t < endT
    · obtain ⟨n, hn, heq, hguard, hterm⟩ :=
        ih (t + interval) (q ++ [⟨t, (orig : ℤ) - ((k + 1 : ℕ) : ℤ) + 1⟩])
      refine ⟨n + 1, Nat.succ_le_succ hn, ?_, ?_, ?_⟩
      · rw [scheduleBeatsAux, dif_pos ⟨h, Nat.succ_pos k⟩]
        simp only [Nat.add_sub_cancel]
        rw [heq]
        refine Prod.ext ?_ (Prod.ext ?_ (Prod.ext ?_ rfl))
        · simp [Nat.succ_sub_succ]
        · show t + interval + (n : ℚ) * interval = t + ((n : ℕ) + 1 : ℕ) * interval
          push_cast
          ring
        · show (q ++ [⟨t, (orig : ℤ) - ((k + 1 : ℕ) : ℤ) + 1⟩]) ++
              (List.range n).map
              (fun i => ⟨t + interval + i * interval, (orig : ℤ) - k + 1 + i⟩) =
            q ++ (List.range (n + 1)).map
              (fun i => ⟨t + i * interval, (orig : ℤ) - ((k + 1 : ℕ) : ℤ) + 1 + i⟩)
          rw [List.range_succ_eq_map, List.map_cons, List.map_map,
            List.append_assoc]
          refine congrArg (q ++ ·) ?_
          refine congrArg₂ List.cons ?_ ?_
          · simp only [Beat.mk.injEq]
            constructor
            · push_cast
              ring
            · push_cast
              ring
          · refine List.map_congr_left ?_
            intro i _
            simp only [Function.comp_apply, Beat.mk.injEq]
            constructor
            · push_cast
              ring
            · push_cast
              ring
      · intro i hi
        match i with
        | 0 => simpa using h
        | j + 1 =>
          have hj := hguard j (by omega)
          have hrw : t + ((j : ℚ) + 1) * interval =
              t + interval + (j : ℚ) * interval := by
            ring
          push_cast
          rw [hrw]
          exact hj
      · rcases hterm with h1 | h2
        · exact Or.inl (by omega)
        · refine Or.inr ?_
          have hrw : t + (((n : ℕ) + 1 : ℕ) : ℚ) * interval =
              t + interval + (n : ℚ) * interval := by
            push_cast
            ring
          rw [hrw]
          exact h2
    · refine ⟨0, Nat.zero_le _, ?_, ?_, Or.inr (by simpa using h)⟩
      · rw [scheduleBeatsAux, dif_neg (by intro hc; exact h hc.1)]
        simp
      · intro i hi
        exact absurd hi (Nat.not_lt_zero i)

/-- Queue invariants preserved and re-established by the fill loop. -/
lemma scheduleBeatsAux_inv (endT interval : ℚ) (orig c : ℕ) (t : ℚ)
    (q : List Beat) (hint : 0 < interval)
    (hqt : q.Pairwise (fun a b => a.time < b.time))
    (hqi : q.Pairwise (fun a b => a.beatNumber < b.beatNumber))
    (hqlt : ∀ b ∈ q, b.time < t)
    (hqub : ∀ b ∈ q, b.beatNumber ≤ (orig : ℤ) - c) :
    (scheduleBeatsAux endT interval orig c t q).2.2.1.Pairwise
        (fun a b => a.time < b.time) ∧
    (scheduleBeatsAux endT interval orig c t q).2.2.1.Pairwise
        (fun a b => a.beatNumber < b.beatNumber) ∧
    (∀ b ∈ (scheduleBeatsAux endT interval orig c t q).2.2.1,
        b.time < (scheduleBeatsAux endT interval orig c t q).2.1) ∧
    (∀ b ∈ (scheduleBeatsAux endT interval orig c t q).2.2.1,
        b.beatNumber ≤ (orig : ℤ) - (scheduleBeatsAux endT interval orig c t q).1) ∧
    t ≤ (scheduleBeatsAux endT interval orig c t q).2.1 ∧
    (∀ b ∈ (scheduleBeatsAux endT interval orig c t q).2.2.1,
        b ∈ q ∨ t ≤ b.time) := by
  obtain ⟨n, hn, heq, _hguard, _hterm⟩ := scheduleBeatsAux_spec endT interval orig c t q
  rw [heq]
  have hmem : ∀ b ∈ (List.range n).map
      (fun i : ℕ => (⟨t + i * interval, (orig : ℤ) - c + 1 + i⟩ : Beat)),
      ∃ i : ℕ, i < n ∧
        b = (⟨t + i * interval, (orig : ℤ) - c + 1 + i⟩ : Beat) := by
    intro b hb
    obtain ⟨i, hi, rfl⟩ := List.mem_map.mp hb
    exact ⟨i, List.mem_range.mp hi, rfl⟩
  have hMt : ((List.range n).map
      (fun i : ℕ => (⟨t + i * interval, (orig : ℤ) - c + 1 + i⟩ : Beat))).Pairwise
      (fun a b => a.time < b.time) := by
    rw [List.pairwise_map]
    refine (List.pairwise_lt_range n).imp ?_
    intro i j hij
    have : (i : ℚ) < (j : ℚ) := by exact_mod_cast hij
    simpa using add_lt_add_left (mul_lt_mul_of_pos_right this hint) t
  have hMi : ((List.range n).map
      (fun i : ℕ => (⟨t + i * interval, (orig : ℤ) - c + 1 + i⟩ : Beat))).Pairwise
      (fun a b => a.beatNumber < b.beatNumber) := by
    rw [List.pairwise_map]
    refine (List.pairwise_lt_range n).imp ?_
    intro i j hij
    have : (i : ℤ) < (j : ℤ) := by exact_mod_cast hij
    simpa using this
  have hcast : ((c - n : ℕ) : ℤ) = (c : ℤ) - (n : ℤ) := by
    exact_mod_cast Int.ofNat_sub hn
  refine ⟨?_, ?_, ?_, ?_, ?_, ?_⟩
  · refine List.pairwise_append.mpr ⟨hqt, hMt, ?_⟩
    intro a ha b hb
    obtain ⟨i, _, rfl⟩ := hmem b hb
    have h1 : a.time < t := hqlt a ha
    have h2 : (0 : ℚ) ≤ (i : ℚ) * interval :=
      mul_nonneg (Nat.cast_nonneg i) (le_of_lt hint)
    simpa using lt_of_lt_of_le h1 (by linarith)
  · refine List.pairwise_append.mpr ⟨hqi, hMi, ?_⟩
    intro a ha b hb
    obtain ⟨i, _, rfl⟩ := hmem b hb
    have h1 : a.beatNumber ≤ (orig : ℤ) - c := hqub a ha
    have h2 : (0 : ℤ) ≤ (i : ℤ) := Int.ofNat_nonneg i
    simp only
    omega
  · intro b hb
    rcases List.mem_append.mp hb with hb | hb
    · have h1 : b.time < t := hqlt b hb
      have h2 : (0 : ℚ) ≤ (n : ℚ) * interval :=
        mul_nonneg (Nat.cast_nonneg n) (le_of_lt hint)
      simp only
      linarith
    · obtain ⟨i, hi, rfl⟩ := hmem b hb
      have : (i : ℚ) < (n : ℚ) := by exact_mod_cast hi
      simp only
      nlinarith
  · intro b hb
    simp only [hcast]
    rcases List.mem_append.mp hb with hb | hb
    · have h1 : b.beatNumber ≤ (orig : ℤ) - c := hqub b hb
      omega
    · obtain ⟨i, hi, rfl⟩ := hmem b hb
      have : (i : ℤ) < (n : ℤ) := by exact_mod_cast hi
      simp only
      omega
  · have h2 : (0 : ℚ) ≤ (n : ℚ) * interval :=
      mul_nonneg (Nat.cast_nonneg n) (le_of_lt hint)
    show t ≤ t + (n : ℚ) * interval
    linarith
  · intro b hb
    rcases List.mem_append.mp hb with hb | hb
    · exact Or.inl hb
    · obtain ⟨i, hi, rfl⟩ := hmem b hb
      have h2 : (0 : ℚ) ≤ (i : ℚ) * interval :=
        mul_nonneg (Nat.cast_nonneg i) (le_of_lt hint)
      refine Or.inr ?_
      simp only
      linarith

/-! ### The pending-queue invariant -/


lemma inv_stopSys {s : SchedulerRun} (h : SchedInv s) : SchedInv (stopSys s) := by
  obtain ⟨h1, h2, h3, h4, h5, h6, h7, h8, h9, h10, h11, h12, h13, h14⟩ := h
  exact ⟨h1, by simp [stopSys, stopCountdown], by simp [stopSys, stopCountdown],
    by simp [stopSys, stopCountdown], by simp [stopSys, stopCountdown],
    by simp [stopSys, stopCountdown], h7, h8, h9, h10, h11, h12, h13, h14⟩

lemma inv_tickSys {s : SchedulerRun} (h : SchedInv s) : SchedInv (tickSys s) := by
  obtain ⟨h1, h2, h3, h4, h5, h6, h7, h8, h9, h10, h11, h12, h13, h14⟩ := h
  unfold tickSys timerTick
  dsimp only
  split
  · split
    · exact ⟨h1, h2, h3, h4, h5, h6, h7, h8, h9, h10, h11, h12, h13, h14⟩
    · exact ⟨h1, h2, h3, h4, h5, h6, h7, h8, h9, h10, h11, h12, h13, h14⟩
  · exact ⟨h1, h2, h3, h4, h5, h6, h7, h8, h9, h10, h11, h12, h13, h14⟩

lemma inv_disableSys {s : SchedulerRun} (t : ℚ) (h : SchedInv s)
    (ht : s.lastNow < t) : SchedInv (disableSys t s) := by
  obtain ⟨h1, h2, h3, h4, h5, h6, h7, h8, h9, h10, h11, h12, h13, h14⟩ := h
  unfold disableSys disableTimer
  split
  · exact ⟨h1, h2, h3, h4, h5, h6, h7, h8, h9, h10, h11,
      fun b hb => le_trans (h12 b hb) (le_of_lt ht), h13, h14⟩
  · rename_i hcond
    push_neg at hcond
    refine ⟨h1, h2, by simp, ?_, by simp, by simp, by simp, by simp, by simp,
      by simp, h11, fun b hb => le_trans (h12 b hb) (le_of_lt ht), h13, by simp⟩
    intro _
    exact Bool.ne_false_iff.mp hcond.1

/-- `scheduleBeats` leaves every field except the countdown, `nextBeatTime`
and the two queues unchanged. -/
lemma scheduleBeats_fields (now : ℚ) (st : TimerState) :
    (scheduleBeats now st).originalCountdown = st.originalCountdown ∧
    (scheduleBeats now st).isRunning = st.isRunning ∧
    (scheduleBeats now st).isDisabled = st.isDisabled ∧
    (scheduleBeats now st).animationFrame = st.animationFrame ∧
    (scheduleBeats now st).beatInterval = st.beatInterval ∧
    (scheduleBeats now st).bpm = st.bpm ∧
    (scheduleBeats now st).startTime = st.startTime ∧
    (scheduleBeats now st).timerInterval = st.timerInterval :=
  ⟨rfl, rfl, rfl, rfl, rfl, rfl, rfl, rfl⟩

/-- The queue invariant transported through `scheduleBeats`. -/
lemma scheduleBeats_inv (now : ℚ) (st : TimerState)
    (hint : 0 < st.beatInterval)
    (hqt : st.scheduledBeats.Pairwise (fun a b => a.time < b.time))
    (hqi : st.scheduledBeats.Pairwise (fun a b => a.beatNumber < b.beatNumber))
    (hqlt : ∀ b ∈ st.scheduledBeats, b.time < st.nextBeatTime)
    (hqub : ∀ b ∈ st.scheduledBeats,
      b.beatNumber ≤ (st.originalCountdown : ℤ) - st.countdown) :
    (scheduleBeats now st).scheduledBeats.Pairwise (fun a b => a.time < b.time) ∧
    (scheduleBeats now st).scheduledBeats.Pairwise
      (fun a b => a.beatNumber < b.beatNumber) ∧
    (∀ b ∈ (scheduleBeats now st).scheduledBeats,
      b.time < (scheduleBeats now st).nextBeatTime) ∧
    (∀ b ∈ (scheduleBeats now st).scheduledBeats,
      b.beatNumber ≤ ((scheduleBeats now st).originalCountdown : ℤ) -
        (scheduleBeats now st).countdown) ∧
    st.nextBeatTime ≤ (scheduleBeats now st).nextBeatTime ∧
    (∀ b ∈ (scheduleBeats now st).scheduledBeats,
      b ∈ st.scheduledBeats ∨ st.nextBeatTime ≤ b.time) :=
  scheduleBeatsAux_inv (now + lookaheadTime) st.beatInterval st.originalCountdown
    st.countdown st.nextBeatTime st.scheduledBeats hint hqt hqi hqlt hqub

lemma inv_startSys (d : ℕ) (b t : ℚ) (hb : MIN_BPM ≤ b) :
    SchedInv (startSys d b t) := by
  have hbpos : (0 : ℚ) < b := by
    have h30 : (30 : ℚ) ≤ b := hb
    linarith
  have hint : (0 : ℚ) < 60 / b := by positivity
  have hintst : (0 : ℚ) <
      ({ countdown := (calculateRequiredBeats ((d : ℚ) * 60) b).toNat,
         originalCountdown := (calculateRequiredBeats ((d : ℚ) * 60) b).toNat,
         targetDurationMinutes := d, remainingTimeSeconds := (d : ℤ) * 60,
         bpm := b, isRunning := true, scheduledBeats := [],
         scheduledVisualBeats := [], nextBeatTime := t, beatInterval := 60 / b,
         startTime := t, isDisabled := false, animationFrame := false,
         timerInterval := false, disableTimeout := false } : TimerState).beatInterval := hint
  have H := scheduleBeats_inv t _ hintst (List.Pairwise.nil) (List.Pairwise.nil)
    (by intro b hb; exact absurd hb (List.not_mem_nil b))
    (by intro b hb; exact absurd hb (List.not_mem_nil b))
  refine ⟨hbpos, fun _ => hint, fun _ => rfl, ?_, ?_, ?_, H.1, H.2.1, H.2.2.1,
    H.2.2.2.1, List.Pairwise.nil, ?_, ?_, ?_⟩
  · intro h
    exact absurd h (by exact fun hh => Bool.noConfusion hh)
  · intro h
    exact absurd h (by exact fun hh => Bool.noConfusion hh)
  · intro h
    exact absurd h (by exact fun hh => Bool.noConfusion hh)
  · intro x hx
    exact absurd hx (List.not_mem_nil x)
  · intro x hx
    exact absurd hx (List.not_mem_nil x)
  · intro x hx
    exact absurd hx (List.not_mem_nil x)

lemma inv_resumeSys {s : SchedulerRun} (t : ℚ) (h : SchedInv s)
    (ht : s.lastNow < t) (hrun : s.st.isRunning = false) :
    SchedInv (resumeSys t s) := by
  obtain ⟨h1, h2, h3, h4, h5, h6, h7, h8, h9, h10, h11, h12, h13, h14⟩ := h
  unfold resumeSys resumeCountdown
  split
  · have hint : (0 : ℚ) <
        ({ s.st with isRunning := true, beatInterval := 60 / s.st.bpm,
                     startTime := t, nextBeatTime := t, scheduledBeats := [],
                     scheduledVisualBeats := [] } : TimerState).beatInterval := by
      show (0 : ℚ) < 60 / s.st.bpm
      positivity
    have H := scheduleBeats_inv t _ hint (List.Pairwise.nil) (List.Pairwise.nil)
      (by intro x hx; exact absurd hx (List.not_mem_nil x))
      (by intro x hx; exact absurd hx (List.not_mem_nil x))
    have hdis : s.st.isDisabled = false := by
      cases hd : s.st.isDisabled with
      | false => rfl
      | true => rw [h4 hd] at hrun; exact Bool.noConfusion hrun
    refine ⟨h1, fun _ => hint, fun _ => rfl, ?_, ?_, ?_, H.1, H.2.1, H.2.2.1,
      H.2.2.2.1, h11, ?_, ?_, ?_⟩
    · intro hx
      rw [show (startCountdownTimer (startTimer t
        ({ s.st with isRunning := true, beatInterval := 60 / s.st.bpm,
                     startTime := t, nextBeatTime := t, scheduledBeats := [],
                     scheduledVisualBeats := [] } : TimerState))).isDisabled =
          s.st.isDisabled from rfl, hdis] at hx
      exact Bool.noConfusion hx
    · intro hx
      rw [show (startCountdownTimer (startTimer t
        ({ s.st with isRunning := true, beatInterval := 60 / s.st.bpm,
                     startTime := t, nextBeatTime := t, scheduledBeats := [],
                     scheduledVisualBeats := [] } : TimerState))).isDisabled =
          s.st.isDisabled from rfl, hdis] at hx
      exact Bool.noConfusion hx
    · intro hx
      rw [show (startCountdownTimer (startTimer t
        ({ s.st with isRunning := true, beatInterval := 60 / s.st.bpm,
                     startTime := t, nextBeatTime := t, scheduledBeats := [],
                     scheduledVisualBeats := [] } : TimerState))).isDisabled =
          s.st.isDisabled from rfl, hdis] at hx
      exact Bool.noConfusion hx
    · intro x hx
      exact le_trans (h12 x hx) (le_of_lt ht)
    · intro x hx
      have hxt : x.time < t := lt_of_le_of_lt (h12 x hx) ht
      exact lt_of_lt_of_le hxt H.2.2.2.2.1
    · intro r hr x hx
      rcases H.2.2.2.2.2 x hx with hmem | hge
      · exact absurd hmem (List.not_mem_nil x)
      · exact lt_of_lt_of_le (lt_of_le_of_lt (h12 r hr) ht) hge
  · exact ⟨h1, h2, h3, h4, h5, h6, h7, h8, h9, h10, h11,
      fun x hx => le_trans (h12 x hx) (le_of_lt ht), h13, h14⟩

lemma inv_enableSys {s : SchedulerRun} (t : ℚ) (h : SchedInv s)
    (ht : s.lastNow < t) : SchedInv (enableSys t s) := by
  obtain ⟨h1, h2, h3, h4, h5, h6, h7, h8, h9, h10, h11, h12, h13, h14⟩ := h
  unfold enableSys enableTimer
  split
  · exact ⟨h1, h2, h3, h4, h5, h6, h7, h8, h9, h10, h11,
      fun x hx => le_trans (h12 x hx) (le_of_lt ht), h13, h14⟩
  · rename_i hd
    have hdis : s.st.isDisabled = true := by
      cases hdd : s.st.isDisabled with
      | false => exact absurd hdd hd
      | true => rfl
    have hint : (0 : ℚ) < 60 / s.st.bpm := by positivity
    have hq : s.st.scheduledBeats = [] := h6 hdis
    have hmod : jsMod (t - s.st.startTime) (60 / s.st.bpm) < 60 / s.st.bpm :=
      jsMod_lt _ _ hint
    unfold resumeBeatScheduling
    refine ⟨h1, fun _ => hint, fun _ => h4 hdis, ?_, ?_, ?_, ?_, ?_, ?_, ?_,
      h11, ?_, ?_, ?_⟩
    · intro hx
      exact Bool.noConfusion hx
    · intro hx
      exact Bool.noConfusion hx
    · intro hx
      exact Bool.noConfusion hx
    · show s.st.scheduledBeats.Pairwise (fun a b => a.time < b.time)
      rw [hq]
      exact List.Pairwise.nil
    · show s.st.scheduledBeats.Pairwise (fun a b => a.beatNumber < b.beatNumber)
      rw [hq]
      exact List.Pairwise.nil
    · intro x hx
      have hx' : x ∈ s.st.scheduledBeats := hx
      rw [hq] at hx'
      exact absurd hx' (List.not_mem_nil x)
    · intro x hx
      have hx' : x ∈ s.st.scheduledBeats := hx
      rw [hq] at hx'
      exact absurd hx' (List.not_mem_nil x)
    · intro x hx
      have hx' : x ∈ s.released := hx
      exact le_trans (h12 x hx') (le_of_lt ht)
    · intro x hx
      have hx' : x ∈ s.released := hx
      have h1x : x.time < t := lt_of_le_of_lt (h12 x hx') ht
      show x.time < t + (60 / s.st.bpm - jsMod (t - s.st.startTime) (60 / s.st.bpm))
      linarith
    · intro r hr x hx
      have hx' : x ∈ s.st.scheduledBeats := hx
      rw [hq] at hx'
      exact absurd hx' (List.not_mem_nil x)

lemma inv_updateBpmSys {s : SchedulerRun} (b t : ℚ) (h : SchedInv s)
    (ht : s.lastNow < t) (hb : MIN_BPM ≤ b) : SchedInv (updateBpmSys b t s) := by
  obtain ⟨h1, h2, h3, h4, h5, h6, h7, h8, h9, h10, h11, h12, h13, h14⟩ := h
  have hbpos : (0 : ℚ) < b := by
    have h30 : (30 : ℚ) ≤ b := hb
    linarith
  have hint : (0 : ℚ) < 60 / b := by positivity
  unfold updateBpmSys updateBpm
  dsimp only
  split
  · have hmod : jsMod (t - (s.st.nextBeatTime - s.st.beatInterval)) (60 / b) <
        60 / b := jsMod_lt _ _ hint
    refine ⟨hbpos, fun _ => hint, h3, h4, h5, fun _ => rfl, List.Pairwise.nil,
      List.Pairwise.nil, ?_, ?_, h11, ?_, ?_, ?_⟩
    · intro x hx
      have hx' : x ∈ ([] : List Beat) := hx
      exact absurd hx' (List.not_mem_nil x)
    · intro x hx
      have hx' : x ∈ ([] : List Beat) := hx
      exact absurd hx' (List.not_mem_nil x)
    · intro x hx
      have hx' : x ∈ s.released := hx
      exact le_trans (h12 x hx') (le_of_lt ht)
    · intro x hx
      have hx' : x ∈ s.released := hx
      have h1x : x.time < t := lt_of_le_of_lt (h12 x hx') ht
      show x.time < t + (60 / b -
        jsMod (t - (s.st.nextBeatTime - s.st.beatInterval)) (60 / b))
      linarith
    · intro r hr x hx
      have hx' : x ∈ ([] : List Beat) := hx
      exact absurd hx' (List.not_mem_nil x)
  · exact ⟨hbpos, h2, h3, h4, h5, h6, h7, h8, h9, h10, h11,
      fun x hx => le_trans (h12 x hx) (le_of_lt ht), h13, h14⟩

lemma inv_frameSys {s : SchedulerRun} (t : ℚ) (h : SchedInv s)
    (ht : s.lastNow < t) : SchedInv (schedulerLoop t s) := by
  obtain ⟨h1, h2, h3, h4, h5, h6, h7, h8, h9, h10, h11, h12, h13, h14⟩ := h
  unfold schedulerLoop
  by_cases ha : s.st.animationFrame = false
  · rw [if_pos ha]
    exact ⟨h1, h2, h3, h4, h5, h6, h7, h8, h9, h10, h11, h12, h13, h14⟩
  · rw [if_neg ha]
    have harm : s.st.animationFrame = true := by
      cases haa : s.st.animationFrame with
      | false => exact absurd haa ha
      | true => rfl
    have hrun : s.st.isRunning = true := h3 harm
    rw [if_neg (by rw [hrun]; exact fun hh => Bool.noConfusion hh)]
    have hsplit := drainDue_append t s.st.scheduledBeats
    have hda1 := drainDue_released_le t s.st.scheduledBeats
    have hq' : ((drainDue t s.st.scheduledBeats).1 ++
        (drainDue t s.st.scheduledBeats).2).Pairwise
        (fun a b => a.time < b.time) := by
      rw [hsplit]
      exact h7
    obtain ⟨p1, p2, p3⟩ := List.pairwise_append.mp hq'
    have hqi' : ((drainDue t s.st.scheduledBeats).1 ++
        (drainDue t s.st.scheduledBeats).2).Pairwise
        (fun a b => a.beatNumber < b.beatNumber) := by
      rw [hsplit]
      exact h8
    obtain ⟨i1, i2, i3⟩ := List.pairwise_append.mp hqi'
    have hm1 : ∀ x ∈ (drainDue t s.st.scheduledBeats).1,
        x ∈ s.st.scheduledBeats := by
      intro x hx
      rw [← hsplit]
      exact List.mem_append_left _ hx
    have hm2 : ∀ x ∈ (drainDue t s.st.scheduledBeats).2,
        x ∈ s.st.scheduledBeats := by
      intro x hx
      rw [← hsplit]
      exact List.mem_append_right _ hx
    have hrelT : (s.released ++ (drainDue t s.st.scheduledBeats).1).Pairwise
        (fun a b => a.time < b.time) :=
      List.pairwise_append.mpr ⟨h11, p1, fun r hr x hx => h14 r hr x (hm1 x hx)⟩
    have hrelN : ∀ x ∈ s.released ++ (drainDue t s.st.scheduledBeats).1,
        x.time ≤ t := by
      intro x hx
      rcases List.mem_append.mp hx with hx | hx
      · exact le_trans (h12 x hx) (le_of_lt ht)
      · exact hda1 x hx
    have hrelX : ∀ x ∈ s.released ++ (drainDue t s.st.scheduledBeats).1,
        x.time < s.st.nextBeatTime := by
      intro x hx
      rcases List.mem_append.mp hx with hx | hx
      · exact h13 x hx
      · exact h9 x (hm1 x hx)
    have hrelQ : ∀ r ∈ s.released ++ (drainDue t s.st.scheduledBeats).1,
        ∀ b ∈ (drainDue t s.st.scheduledBeats).2, r.time < b.time := by
      intro r hr b hb
      rcases List.mem_append.mp hr with hr | hr
      · exact h14 r hr b (hm2 b hb)
      · exact p3 r hr b hb
    dsimp only
    split
    · refine ⟨h1, ?_, ?_, ?_, ?_, ?_, p2, i2, ?_, ?_, hrelT, hrelN, ?_, hrelQ⟩
      · intro hx
        exact Bool.noConfusion hx
      · intro hx
        exact Bool.noConfusion hx
      · intro hx
        exact Bool.noConfusion hx
      · intro hx
        exact Bool.noConfusion hx
      · intro hx
        exact Bool.noConfusion hx
      · intro b hb
        have hb' : b ∈ (drainDue t s.st.scheduledBeats).2 := hb
        exact h9 b (hm2 b hb')
      · intro b hb
        have hb' : b ∈ (drainDue t s.st.scheduledBeats).2 := hb
        exact h10 b (hm2 b hb')
      · intro x hx
        have hx' : x ∈ s.released ++ (drainDue t s.st.scheduledBeats).1 := hx
        exact hrelX x hx'
    · have hint : (0 : ℚ) <
          ({ s.st with
             scheduledVisualBeats := (drainDue t s.st.scheduledVisualBeats).2,
             scheduledBeats := (drainDue t s.st.scheduledBeats).2,
             animationFrame := false } : TimerState).beatInterval := h2 hrun
      have H := scheduleBeats_inv t _ hint p2 i2
        (fun b hb => h9 b (hm2 b hb)) (fun b hb => h10 b (hm2 b hb))
      refine ⟨h1, fun _ => h2 hrun, fun _ => hrun, fun _ => hrun, ?_, ?_,
        H.1, H.2.1, H.2.2.1, H.2.2.2.1, hrelT, hrelN, ?_, ?_⟩
      · intro hd
        have hd' : s.st.isDisabled = true := hd
        exact absurd (harm.symm.trans (h5 hd')) (fun hh => Bool.noConfusion hh)
      · intro hd
        have hd' : s.st.isDisabled = true := hd
        exact absurd (harm.symm.trans (h5 hd')) (fun hh => Bool.noConfusion hh)
      · intro x hx
        have hx' : x ∈ s.released ++ (drainDue t s.st.scheduledBeats).1 := hx
        exact lt_of_lt_of_le (hrelX x hx') H.2.2.2.2.1
      · intro r hr b hb
        have hr' : r ∈ s.released ++ (drainDue t s.st.scheduledBeats).1 := hr
        rcases H.2.2.2.2.2 b hb with hmem | hge
        · exact hrelQ r hr' b hmem
        · exact lt_of_lt_of_le (hrelX r hr') hge

/-- Every reachable state of a session satisfies the invariant. -/
lemma reach_inv {s : SchedulerRun} (h : Reach s) : SchedInv s := by
  induction h with
  | start d b t hd1 hd2 hb1 hb2 => exact inv_startSys d b t hb1
  | frame t hr ht ih => exact inv_frameSys t ih ht
  | tempo b t hr ht hb1 hb2 ih => exact inv_updateBpmSys b t ih ht hb1
  | stop hr ih => exact inv_stopSys ih
  | resume t hr ht hrun ih => exact inv_resumeSys t ih ht hrun
  | disable t hr ht ih => exact inv_disableSys t ih ht
  | enable t hr ih ht => exact inv_enableSys t ht ih
  | tick hr ih => exact inv_tickSys ih

/-- A frame is a no-op once the animation-frame loop is no longer armed. -/
lemma schedulerLoop_unarmed (t : ℚ) (s : SchedulerRun)
    (h : s.st.animationFrame = false) : schedulerLoop t s = s := by
  unfold schedulerLoop
  rw [if_pos h]


lemma onceInv_frame (t : ℚ) {s : SchedulerRun} (h : OnceInv s) :
    OnceInv (schedulerLoop t s) := by
  obtain ⟨hle, harm, hcs⟩ := h
  unfold schedulerLoop
  by_cases ha : s.st.animationFrame = false
  · rw [if_pos ha]
    exact ⟨hle, harm, hcs⟩
  · rw [if_neg ha]
    have harm' : s.st.animationFrame = true := by
      cases haa : s.st.animationFrame with
      | false => exact absurd haa ha
      | true => rfl
    have hz : s.completions = 0 := harm harm'
    by_cases hr : s.st.isRunning = false
    · rw [if_pos hr]
      refine ⟨show s.completions ≤ 1 by omega, ?_, ?_⟩
      · intro hx
        exact Bool.noConfusion hx
      · intro hx
        have hx' : s.completions = 1 := hx
        omega
    · rw [if_neg hr]
      dsimp only
      split
      · rename_i hcd
        refine ⟨show s.completions + 1 ≤ 1 by omega, ?_, ?_⟩
        · intro hx
          exact Bool.noConfusion hx
        · intro _
          exact ⟨hcd, rfl⟩
      · refine ⟨show s.completions ≤ 1 by omega, fun _ => hz, ?_⟩
        · intro hx
          have hx' : s.completions = 1 := hx
          omega

lemma onceInv_runFrames (ts : List ℚ) {s : SchedulerRun} (h : OnceInv s) :
    OnceInv (runFrames ts s) := by
  induction ts generalizing s with
  | nil => exact h
  | cons t ts ih => exact ih (onceInv_frame t h)

lemma onceInv_startSys (d : ℕ) (b t : ℚ) : OnceInv (startSys d b t) := by
  refine ⟨show (0 : ℕ) ≤ 1 by omega, fun _ => rfl, ?_⟩
  intro hx
  have hx' : (0 : ℕ) = 1 := hx
  omega

lemma aux_step (endT interval : ℚ) (orig c : ℕ) (t : ℚ) (q : List Beat)
    (h1 : t < endT) (h2 : 0 < c) :
    scheduleBeatsAux endT interval orig c t q =
      ((scheduleBeatsAux endT interval orig (c - 1) (t + interval)
          (q ++ [⟨t, (orig : ℤ) - c + 1⟩])).1,
       (scheduleBeatsAux endT interval orig (c - 1) (t + interval)
          (q ++ [⟨t, (orig : ℤ) - c + 1⟩])).2.1,
       (scheduleBeatsAux endT interval orig (c - 1) (t + interval)
          (q ++ [⟨t, (orig : ℤ) - c + 1⟩])).2.2.1,
       (scheduleBeatsAux endT interval orig (c - 1) (t + interval)
          (q ++ [⟨t, (orig : ℤ) - c + 1⟩])).2.2.2 + 1) := by
  rw [scheduleBeatsAux, dif_pos ⟨h1, h2⟩]

lemma aux_stop (endT interval : ℚ) (orig c : ℕ) (t : ℚ) (q : List Beat)
    (h1 : ¬ t < endT) :
    scheduleBeatsAux endT interval orig c t q = (c, t, q, 0) := by
  rw [scheduleBeatsAux, dif_neg (fun hc => h1 hc.1)]

lemma calcRB_eval : (calculateRequiredBeats (((1 : ℕ) : ℚ) * 60) 60).toNat = 60 := by
  norm_num [calculateRequiredBeats]
  rfl

lemma startSys_eval : startSys 1 60 0 =
    { st := { countdown := 59, originalCountdown := 60,
              targetDurationMinutes := 1, remainingTimeSeconds := 60,
              bpm := 60, isRunning := true,
              scheduledBeats := [⟨0, 1⟩], scheduledVisualBeats := [⟨0, 1⟩],
              nextBeatTime := 1, beatInterval := 1, startTime := 0,
              isDisabled := false, animationFrame := true,
              timerInterval := true, disableTimeout := false },
      released := [], completions := 0, lastNow := 0 } := by
  simp only [startSys, startCountdown, startTimer, startCountdownTimer,
    scheduleBeats, calcRB_eval, initTimerState]
  rw [aux_step _ _ _ _ _ _ (by norm_num [lookaheadTime]) (by norm_num),
    aux_stop _ _ _ _ _ _ (by norm_num [lookaheadTime])]
  norm_num [SchedulerRun.mk.injEq, TimerState.mk.injEq, Beat.mk.injEq]

lemma drainDue_nil (now : ℚ) : drainDue now [] = ([], []) := rfl

lemma drainDue_cons_due (now : ℚ) (b : Beat) (rest : List Beat)
    (h : b.time ≤ now) :
    drainDue now (b :: rest) =
      (b :: (drainDue now rest).1, (drainDue now rest).2) := by
  rw [drainDue, if_pos h]

lemma drainDue_cons_wait (now : ℚ) (b : Beat) (rest : List Beat)
    (h : ¬ b.time ≤ now) :
    drainDue now (b :: rest) = ([], b :: rest) := by
  rw [drainDue, if_neg h]

lemma frame_step_run (t T N iv L sT bpm : ℚ) (β : ℤ) (c orig dur : ℕ)
    (rts : ℤ) (R : List Beat) (comp : ℕ)
    (hdue : T ≤ t) (hc : ¬ c = 0)
    (hf1 : N < t + lookaheadTime) (hf2 : ¬ N + iv < t + lookaheadTime) :
    schedulerLoop t
      { st := { countdown := c, originalCountdown := orig,
                targetDurationMinutes := dur, remainingTimeSeconds := rts,
                bpm := bpm, isRunning := true,
                scheduledBeats := [⟨T, β⟩], scheduledVisualBeats := [⟨T, β⟩],
                nextBeatTime := N, beatInterval := iv, startTime := sT,
                isDisabled := false, animationFrame := true,
                timerInterval := true, disableTimeout := false },
        released := R, completions := comp, lastNow := L } =
      { st := { countdown := c - 1, originalCountdown := orig,
                targetDurationMinutes := dur, remainingTimeSeconds := rts,
                bpm := bpm, isRunning := true,
                scheduledBeats := [⟨N, (orig : ℤ) - c + 1⟩],
                scheduledVisualBeats := [⟨N, (orig : ℤ) - c + 1⟩],
                nextBeatTime := N + iv, beatInterval := iv, startTime := sT,
                isDisabled := false, animationFrame := true,
                timerInterval := true, disableTimeout := false },
        released := R ++ [⟨T, β⟩], completions := comp, lastNow := t } := by
  simp only [schedulerLoop]
  rw [if_neg (by simp), if_neg (by simp)]
  rw [drainDue_cons_due _ _ _ hdue, drainDue_nil]
  simp only
  rw [if_neg hc]
  simp only [scheduleBeats]
  rw [aux_step _ _ _ _ _ _ hf1 (Nat.pos_of_ne_zero hc),
    aux_stop _ _ _ _ _ _ hf2]
  simp

lemma frame_step_complete (t T N iv L sT bpm : ℚ) (β : ℤ) (c orig dur : ℕ)
    (rts : ℤ) (R : List Beat) (comp : ℕ) (hdue : ¬ T ≤ t) (hc0 : c = 0) :
    schedulerLoop t
      { st := { countdown := c, originalCountdown := orig,
                targetDurationMinutes := dur, remainingTimeSeconds := rts,
                bpm := bpm, isRunning := true,
                scheduledBeats := [⟨T, β⟩], scheduledVisualBeats := [⟨T, β⟩],
                nextBeatTime := N, beatInterval := iv, startTime := sT,
                isDisabled := false, animationFrame := true,
                timerInterval := true, disableTimeout := false },
        released := R, completions := comp, lastNow := L } =
      { st := { countdown := c, originalCountdown := orig,
                targetDurationMinutes := dur, remainingTimeSeconds := rts,
                bpm := bpm, isRunning := false,
                scheduledBeats := [⟨T, β⟩], scheduledVisualBeats := [⟨T, β⟩],
                nextBeatTime := N, beatInterval := iv, startTime := sT,
                isDisabled := false, animationFrame := false,
                timerInterval := false, disableTimeout := false },
        released := R, completions := comp + 1, lastNow := t } := by
  simp only [schedulerLoop]
  rw [if_neg (by simp), if_neg (by simp)]
  rw [drainDue_cons_wait _ _ _ hdue]
  simp only
  rw [if_pos hc0]
  simp [stopCountdown]



lemma runFrames_snoc (a : List ℚ) (t : ℚ) (s : SchedulerRun) :
    runFrames (a ++ [t]) s = schedulerLoop t (runFrames a s) := by
  simp [runFrames, List.foldl_append]

lemma scen_run : ∀ k, k ≤ 58 →
    runFrames (scenFrames (k + 1)) (startSys 1 60 0) = scenState k := by
  intro k
  induction k with
  | zero =>
    intro _
    have h1 : scenFrames 1 = [(3 : ℚ)/5] := by
      norm_num [scenFrames, List.range_succ, List.range_zero]
    have h2 : runFrames [(3 : ℚ)/5] (startSys 1 60 0) =
        schedulerLoop (3/5) (startSys 1 60 0) := rfl
    rw [h1, h2, startSys_eval]
    rw [frame_step_run _ _ _ _ _ _ _ _ _ _ _ _ _ _
      (by norm_num) (by norm_num) (by norm_num [lookaheadTime])
      (by norm_num [lookaheadTime])]
    simp only [scenState, SchedulerRun.mk.injEq, TimerState.mk.injEq,
      Beat.mk.injEq, List.cons.injEq, List.range_succ, List.range_zero,
      List.map_append, List.map_cons, List.map_nil, List.nil_append]
    norm_num
  | succ k ih =>
    intro hk
    have hk' : k ≤ 58 := by omega
    have hsnoc : scenFrames (k + 2) =
        scenFrames (k + 1) ++ [((k : ℚ) + 1) + 3/5] := by
      simp [scenFrames, List.range_succ]
    rw [hsnoc, runFrames_snoc, ih hk']
    show schedulerLoop (((k : ℚ) + 1) + 3/5) (scenState k) = scenState (k + 1)
    rw [scenState]
    rw [frame_step_run _ _ _ _ _ _ _ _ _ _ _ _ _ _
      (by push_cast; linarith) (by omega)
      (by norm_num [lookaheadTime]; push_cast; linarith)
      (by norm_num [lookaheadTime]; push_cast; linarith)]
    have hcast : ((58 - k : ℕ) : ℤ) = 58 - (k : ℤ) := by
      omega
    simp only [scenState, SchedulerRun.mk.injEq, TimerState.mk.injEq,
      Beat.mk.injEq, List.cons.injEq, List.range_succ, List.map_append,
      List.map_cons, List.map_nil, hcast]
    repeat' apply And.intro
    all_goals try rfl
    all_goals try omega
    all_goals try (push_cast; ring)
    all_goals try (push_cast; omega)
    all_goals (congr 1 <;> simp [Beat.mk.injEq] <;> try ring)


lemma c3_run_eval : runFrames c3Frames (startSys 1 60 0) =
    { st := { countdown := 0, originalCountdown := 60,
              targetDurationMinutes := 1, remainingTimeSeconds := 60,
              bpm := 60, isRunning := false,
              scheduledBeats := [⟨59, 60⟩], scheduledVisualBeats := [⟨59, 60⟩],
              nextBeatTime := 60, beatInterval := 1, startTime := 0,
              isDisabled := false, animationFrame := false,
              timerInterval := false, disableTimeout := false },
      released := (List.range 59).map
        (fun (j : ℕ) => (⟨(j : ℚ), (j : ℤ) + 1⟩ : Beat)),
      completions := 1, lastNow := 294/5 } := by
  have h1 : c3Frames = scenFrames (58 + 1) ++ [(294 : ℚ)/5] := rfl
  rw [h1, runFrames_snoc, scen_run 58 (by omega)]
  rw [scenState]
  rw [frame_step_complete _ _ _ _ _ _ _ _ _ _ _ _ _ _
    (by push_cast; norm_num) (by norm_num)]
  norm_num [SchedulerRun.mk.injEq, TimerState.mk.injEq, Beat.mk.injEq]

/-- The state after `start(1, 60)` at clock 0 and one frame at 0.6. -/
lemma frame0_eval : schedulerLoop ((3 : ℚ)/5) (startSys 1 60 0) =
    { st := { countdown := 58, originalCountdown := 60,
              targetDurationMinutes := 1, remainingTimeSeconds := 60,
              bpm := 60, isRunning := true,
              scheduledBeats := [⟨1, 2⟩], scheduledVisualBeats := [⟨1, 2⟩],
              nextBeatTime := 2, beatInterval := 1, startTime := 0,
              isDisabled := false, animationFrame := true,
              timerInterval := true, disableTimeout := false },
      released := [⟨0, 1⟩], completions := 0, lastNow := 3/5 } := by
  rw [startSys_eval, frame_step_run _ _ _ _ _ _ _ _ _ _ _ _ _ _
    (by norm_num) (by norm_num) (by norm_num [lookaheadTime])
    (by norm_num [lookaheadTime])]
  norm_num [SchedulerRun.mk.injEq, TimerState.mk.injEq, Beat.mk.injEq]

/-- `resumeCountdown` invoked while the session from `start(1, 60)` is still
running consumes another beat from the countdown. -/
lemma resume_eval :
    (resumeCountdown (3/10) (startSys 1 60 0).st).countdown = 58 := by
  rw [startSys_eval]
  unfold resumeCountdown
  rw [if_pos (by norm_num)]
  simp only [startTimer, startCountdownTimer, scheduleBeats]
  rw [aux_step _ _ _ _ _ _ (by norm_num [lookaheadTime]) (by norm_num),
    aux_stop _ _ _ _ _ _ (by norm_num [lookaheadTime])]

/-- The pending queue after `start` at clock 0, `stop`, and a second `start`
at clock 2: the stale beat of the first session is still queued next to the
new session's first beat, and both carry index 1. -/
lemma restart_eval :
    (startCountdown 1 60 2 (stopCountdown (startCountdown 1 60 0
      initTimerState))).scheduledBeats = [⟨0, 1⟩, ⟨2, 1⟩] := by
  rw [show startCountdown 1 60 0 initTimerState = (startSys 1 60 0).st
    from rfl, startSys_eval]
  simp only [stopCountdown, startCountdown, startTimer, startCountdownTimer,
    scheduleBeats, calcRB_eval]
  rw [aux_step _ _ _ _ _ _ (by norm_num [lookaheadTime]) (by norm_num),
    aux_stop _ _ _ _ _ _ (by norm_num [lookaheadTime])]
  norm_num [Beat.mk.injEq]

/-- `disableTimer` never touches the countdown. -/
lemma disableTimer_countdown (st : TimerState) :
    (disableTimer st).countdown = st.countdown := by
  unfold disableTimer
  split <;> rfl

/-- `enableTimer` never touches the countdown. -/
lemma enableTimer_countdown (t : ℚ) (st : TimerState) :
    (enableTimer t st).countdown = st.countdown := by
  unfold enableTimer resumeBeatScheduling
  split <;> rfl

/-! ### Claim theorems -/

/-- C1: starting a session computes
`totalBeats = ceil(durationMinutes * 60 * bpm / 60)` (stored as
`originalCountdown`); for every duration in `[1, 999]` and starting tempo in
`[MIN_BPM, MAX_BPM]` the value depends only on those two inputs and is at
least 1, and `start(durationMinutes = 1, bpm = 60)` yields 60 beats. -/
theorem C1_totalBeats (d : ℕ) (b now : ℚ) (st : TimerState)
    (hd1 : 1 ≤ d) (hd2 : d ≤ 999) (hb1 : MIN_BPM ≤ b) (hb2 : b ≤ MAX_BPM) :
    ((startCountdown d b now st).originalCountdown : ℤ) =
      ⌈(d : ℚ) * 60 * b / 60⌉ ∧
    1 ≤ (startCountdown d b now st).originalCountdown ∧
    (∀ (nowX : ℚ) (stX : TimerState),
      (startCountdown d b nowX stX).originalCountdown =
        (startCountdown d b now st).originalCountdown) ∧
    (startCountdown 1 60 now st).originalCountdown = 60 := by
  have hb30 : (30 : ℚ) ≤ b := hb1
  have hd1Q : (1 : ℚ) ≤ (d : ℚ) := by exact_mod_cast hd1
  have hd0 : (0 : ℚ) < (d : ℚ) := lt_of_lt_of_le one_pos hd1Q
  have hb0 : (0 : ℚ) < b := by linarith
  have hpos : (0 : ℚ) < (d : ℚ) * 60 * b / 60 := by positivity
  have hceil : 1 ≤ ⌈(d : ℚ) * 60 * b / 60⌉ := Int.ceil_pos.mpr hpos
  have heqz : ((startCountdown d b now st).originalCountdown : ℤ) =
      ⌈(d : ℚ) * 60 * b / 60⌉ := by
    show ((⌈(d : ℚ) * 60 * b / 60⌉.toNat : ℕ) : ℤ) = ⌈(d : ℚ) * 60 * b / 60⌉
    exact Int.toNat_of_nonneg (by omega)
  refine ⟨heqz, by omega, fun nowX stX => rfl, ?_⟩
  show (calculateRequiredBeats (((1 : ℕ) : ℚ) * 60) 60).toNat = 60
  exact calcRB_eval

/-- C1 witness: the theorem instantiated at `start(1, 60)`. -/
theorem C1_totalBeats_witness :
    ((startCountdown 1 60 0 initTimerState).originalCountdown : ℤ) =
      ⌈((1 : ℕ) : ℚ) * 60 * 60 / 60⌉ ∧
    1 ≤ (startCountdown 1 60 0 initTimerState).originalCountdown ∧
    (startCountdown 1 60 0 initTimerState).originalCountdown = 60 := by
  have h := C1_totalBeats 1 60 0 initTimerState (by norm_num) (by norm_num)
    (by norm_num [MIN_BPM]) (by norm_num [MAX_BPM])
  exact ⟨h.1, h.2.1, h.2.2.2⟩

/-- C2 counterexample: at `remainingSeconds = 0` with `remainingBeats = 30`,
`calculateRequiredBpm` returns IEEE `Infinity` — an unbounded, non-finite
value — not a distinguished sentinel such as `undefined`/`null`. -/
theorem C2_counterexample :
    calculateRequiredBpm 30 0 = JSNum.posInf ∧
    (calculateRequiredBpm 30 0).isFinite = false := by
  have h : calculateRequiredBpm 30 0 = JSNum.posInf := by
    norm_num [calculateRequiredBpm, jsDiv, JSNum.round]
  exact ⟨h, by rw [h]; rfl⟩

/-- C2 amended: for `remainingSeconds > 0`, `setToRequiredBpm` returns
`round(remainingBeats * 60 / remainingSeconds)` clamped to
`[MIN_BPM, MAX_BPM] = [30, 200]` (so 30 beats over 30 seconds gives 60 BPM);
for `remainingSeconds = 0` with beats left, `calculateRequiredBpm` silently
produces `Infinity` (no exception), which `setToRequiredBpm` clamps to 200 —
the code does not return a sentinel. -/
theorem C2_requiredBpm (c : ℕ) (r : ℚ) :
    (0 < r → setToRequiredBpm c r =
      JSNum.num (max 30 (min 200 ((jsRound ((c : ℚ) * 60 / r) : ℤ) : ℚ)))) ∧
    (r = 0 → c ≠ 0 → calculateRequiredBpm c r = JSNum.posInf ∧
      setToRequiredBpm c r = JSNum.num 200) ∧
    setToRequiredBpm 30 30 = JSNum.num 60 := by
  refine ⟨?_, ?_, ?_⟩
  · intro hr
    have hr' : r ≠ 0 := ne_of_gt hr
    simp [setToRequiredBpm, calculateRequiredBpm, jsDiv, hr', JSNum.round,
      JSNum.jsMin, JSNum.jsMax]
  · intro hr hc
    have hc0 : (0 : ℚ) < (c : ℚ) := by
      have : 0 < c := Nat.pos_of_ne_zero hc
      exact_mod_cast this
    have hpos : (0 : ℚ) < (c : ℚ) * 60 := by positivity
    constructor
    · simp [calculateRequiredBpm, jsDiv, hr, ne_of_gt hpos, hpos, JSNum.round]
    · simp [setToRequiredBpm, calculateRequiredBpm, jsDiv, hr, ne_of_gt hpos,
        hpos, JSNum.round, JSNum.jsMin, JSNum.jsMax]
      norm_num
  · norm_num [setToRequiredBpm, calculateRequiredBpm, jsDiv, JSNum.round,
      JSNum.jsMin, JSNum.jsMax, jsRound]

/-- C2 witness: the amended theorem at `remainingBeats = 30`,
`remainingSeconds = 30`. -/
theorem C2_requiredBpm_witness :
    (0 : ℚ) < 30 ∧ setToRequiredBpm 30 30 =
      JSNum.num (max 30 (min 200 ((jsRound (((30 : ℕ) : ℚ) * 60 / 30) : ℤ) : ℚ))) :=
  ⟨by norm_num, (C2_requiredBpm 30 30).1 (by norm_num)⟩

/-- C3 amended: over any frame schedule, the completion callback fires at
most once per session; when it has fired, `remainingBeats = 0` and polling
has stopped (the animation-frame loop is disarmed, and further frames are
no-ops).  The code does **not** wait for the pending queue to empty: it
completes as soon as `countdown <= 0` after draining due events, so up to a
lookahead window of scheduled beats can remain unreleased. -/
theorem C3_completion_once (d : ℕ) (b t0 : ℚ) (ts : List ℚ) :
    (runFrames ts (startSys d b t0)).completions ≤ 1 ∧
    ((runFrames ts (startSys d b t0)).completions = 1 →
      (runFrames ts (startSys d b t0)).st.countdown = 0 ∧
      (runFrames ts (startSys d b t0)).st.animationFrame = false) ∧
    (∀ t, (runFrames ts (startSys d b t0)).st.animationFrame = false →
      schedulerLoop t (runFrames ts (startSys d b t0)) =
        runFrames ts (startSys d b t0)) := by
  have h := onceInv_runFrames ts (onceInv_startSys d b t0)
  exact ⟨h.le_one, fun hx => h.comp_state hx,
    fun t hx => schedulerLoop_unarmed t _ hx⟩

/-- C3 witness: the amended theorem at `start(1, 60)` with no frames. -/
theorem C3_completion_once_witness :
    (runFrames [] (startSys 1 60 0)).completions ≤ 1 :=
  (C3_completion_once 1 60 0 []).1

/-- C3 counterexample: running `start(1, 60)` under the legitimate
monotone frame schedule `c3Frames`, the completion callback fires (exactly
once) with the pending queue still holding the 60th beat: only 59 of the 60
scheduled beats were ever released, refuting both "completion fires exactly
when remainingBeats == 0 and the pending queue is empty" and "completion
fires after exactly 60 released beats". -/
theorem C3_counterexample :
    (runFrames c3Frames (startSys 1 60 0)).completions = 1 ∧
    (runFrames c3Frames (startSys 1 60 0)).st.countdown = 0 ∧
    (runFrames c3Frames (startSys 1 60 0)).st.scheduledBeats ≠ [] ∧
    (runFrames c3Frames (startSys 1 60 0)).released.length = 59 ∧
    (startSys 1 60 0).st.originalCountdown = 60 := by
  rw [c3_run_eval]
  refine ⟨rfl, rfl, by simp, by simp, ?_⟩
  rw [startSys_eval]

/-- C4 amended: `updateBpm(newBpm)` while running clears every not-yet-released
queued beat (both queues) — so no previously queued beat can fire under the
old interval and beats cannot double-fire — and the recomputed `nextBeatTime`
satisfies `now < nextBeatTime < now + 2 * (60/newBpm)`: strictly in the
future, but possibly more than one new interval ahead.  The claimed upper
bound `nextBeatTime <= now + 60/newBpm` holds exactly when the last
scheduled beat lies in the past (`now >= nextBeatTime - oldInterval`); when
the last scheduled beat is still in the future — the common case, since the
queue holds future beats — the JavaScript `%` of the negative elapsed time
pushes `nextBeatTime` beyond one interval. -/
theorem C4_tempo_change (b now : ℚ) (st : TimerState)
    (hrun : st.isRunning = true) (hb : 0 < b) :
    (updateBpm b now st).scheduledBeats = [] ∧
    (updateBpm b now st).scheduledVisualBeats = [] ∧
    now < (updateBpm b now st).nextBeatTime ∧
    (updateBpm b now st).nextBeatTime < now + 2 * (60 / b) ∧
    (0 ≤ now - (st.nextBeatTime - st.beatInterval) →
      (updateBpm b now st).nextBeatTime ≤ now + 60 / b) := by
  have hint : (0 : ℚ) < 60 / b := by positivity
  have hrun' : ({ st with bpm := b } : TimerState).isRunning = true := hrun
  unfold updateBpm
  rw [if_pos hrun']
  dsimp only
  refine ⟨rfl, rfl, ?_, ?_, ?_⟩
  · have h := jsMod_lt (now - (st.nextBeatTime - st.beatInterval)) (60 / b) hint
    show now < now + (60 / b -
      jsMod (now - (st.nextBeatTime - st.beatInterval)) (60 / b))
    linarith
  · have h := neg_lt_jsMod (now - (st.nextBeatTime - st.beatInterval))
      (60 / b) hint
    show now + (60 / b -
      jsMod (now - (st.nextBeatTime - st.beatInterval)) (60 / b)) <
      now + 2 * (60 / b)
    linarith
  · intro hts
    have h := jsMod_nonneg (now - (st.nextBeatTime - st.beatInterval))
      (60 / b) hts hint
    show now + (60 / b -
      jsMod (now - (st.nextBeatTime - st.beatInterval)) (60 / b)) ≤
      now + 60 / b
    linarith

/-- C4 witness: the amended theorem applied to the running state of
`start(1, 60)` with `updateBpm(120)` at clock 0.7. -/
theorem C4_tempo_change_witness :
    (0 : ℚ) < 120 ∧
    (updateBpm 120 (7/10) (startSys 1 60 0).st).scheduledBeats = [] ∧
    (7 : ℚ)/10 < (updateBpm 120 (7/10) (startSys 1 60 0).st).nextBeatTime ∧
    (updateBpm 120 (7/10) (startSys 1 60 0).st).nextBeatTime <
      7/10 + 2 * (60 / 120) := by
  have h := C4_tempo_change 120 (7/10) (startSys 1 60 0).st rfl (by norm_num)
  exact ⟨by norm_num, h.1, h.2.2.1, h.2.2.2.1⟩

/-- C4 counterexample: in the session started by `start(1, 60)` at clock 0,
after the frame at 0.6 (which scheduled beat 2 at time 1), calling
`updateBpm(120)` at clock 0.7 sets `nextBeatTime = 1.5`, which exceeds
`now + 60/newBpm = 0.7 + 0.5 = 1.2` — refuting the claimed upper bound. -/
theorem C4_counterexample :
    (schedulerLoop (3/5) (startSys 1 60 0)).st.isRunning = true ∧
    (updateBpmSys 120 (7/10)
      (schedulerLoop (3/5) (startSys 1 60 0))).st.nextBeatTime = 3/2 ∧
    ¬ ((updateBpmSys 120 (7/10)
      (schedulerLoop (3/5) (startSys 1 60 0))).st.nextBeatTime ≤
        7/10 + 60 / 120) := by
  have hx : (updateBpmSys 120 (7/10)
      (schedulerLoop (3/5) (startSys 1 60 0))).st.nextBeatTime = 3/2 := by
    rw [show ((3 : ℚ)/5) = ((3 : ℚ)/5) from rfl, frame0_eval]
    simp only [updateBpmSys, updateBpm]
    rw [if_pos trivial]
    show (7 : ℚ)/10 + (60/120 - jsMod ((7 : ℚ)/10 - (2 - 1)) (60/120)) = 3/2
    norm_num [jsMod, jsTrunc]
    rw [show ⌈-((3 : ℚ)/5)⌉ = (0 : ℤ) from by norm_num]
    norm_num
  refine ⟨by rw [frame0_eval], hx, ?_⟩
  rw [hx]
  norm_num

/-- C5: `disableTimer` is a no-op when the session is not running or already
suppressed; otherwise it suppresses beat dispatch (cancels the
animation-frame loop and clears the pending queues), arms the re-enable
timeout, and leaves the one-second duration interval untouched; and neither
`disableTimer` nor the matching `enableTimer` ever mutates `countdown`
(`remainingBeats`), so its value before suppression equals its value after
re-enable. -/
theorem C5_suppression (st : TimerState) (t2 : ℚ) :
    (st.isRunning = false ∨ st.isDisabled = true → disableTimer st = st) ∧
    (st.isRunning = true → st.isDisabled = false →
      (disableTimer st).isDisabled = true ∧
      (disableTimer st).animationFrame = false ∧
      (disableTimer st).scheduledBeats = [] ∧
      (disableTimer st).disableTimeout = true ∧
      (disableTimer st).timerInterval = st.timerInterval) ∧
    (disableTimer st).countdown = st.countdown ∧
    (enableTimer t2 (disableTimer st)).countdown = st.countdown := by
  refine ⟨?_, ?_, ?_, ?_⟩
  · intro h
    unfold disableTimer
    rw [if_pos h]
  · intro h1 h2
    unfold disableTimer
    rw [if_neg (by rw [h1, h2]; simp)]
    exact ⟨rfl, rfl, rfl, rfl, rfl⟩
  · unfold disableTimer
    split <;> rfl
  · rw [enableTimer_countdown, disableTimer_countdown]

/-- C5 witness: the theorem applied to the running, unsuppressed state of
`start(1, 60)`. -/
theorem C5_suppression_witness :
    (disableTimer (startSys 1 60 0).st).isDisabled = true ∧
    (disableTimer (startSys 1 60 0).st).animationFrame = false ∧
    (disableTimer (startSys 1 60 0).st).timerInterval =
      (startSys 1 60 0).st.timerInterval ∧
    (enableTimer 6 (disableTimer (startSys 1 60 0).st)).countdown =
      (startSys 1 60 0).st.countdown := by
  have h := C5_suppression (startSys 1 60 0).st 6
  have h2 := h.2.1 rfl rfl
  exact ⟨h2.1, h2.2.1, h2.2.2.2.2, h.2.2.2⟩

/-- C6: the fill loop of `scheduleBeats`, run with any positive beat
interval from any countdown `c`, next-beat time `t` and queue `q`, appends
exactly `n` beats for some `n <= c`: the i-th appended event is emitted at
the then-current `nextBeatTime` (`t + i * interval`), carries index
`originalCountdown - countdown + 1` as of its schedule time
(`orig - c + 1 + i`), the countdown drops by `n`, `nextBeatTime` advances to
`t + n * interval`, every appended event lies inside the lookahead window
`[t, clockNow + lookaheadSeconds)`, and the loop stops exactly when the
countdown is exhausted or the window is full. -/
theorem C6_fill_contract (clockNow lookaheadSeconds interval : ℚ)
    (orig c : ℕ) (t : ℚ) (q : List Beat) (hint : 0 < interval) :
    ∃ n, n ≤ c ∧
      scheduleBeatsAux (clockNow + lookaheadSeconds) interval orig c t q =
        (c - n, t + n * interval,
         q ++ (List.range n).map
           (fun i => ⟨t + i * interval, (orig : ℤ) - c + 1 + i⟩), n) ∧
      (∀ i < n, t + i * interval < clockNow + lookaheadSeconds) ∧
      (c - n = 0 ∨ ¬ (t + n * interval < clockNow + lookaheadSeconds)) :=
  scheduleBeatsAux_spec (clockNow + lookaheadSeconds) interval orig c t q

/-- C6 witness: the contract at `clockNow = 0`, a one-second lookahead,
interval 1/2, ten total beats, three remaining. -/
theorem C6_fill_contract_witness :
    ∃ n : ℕ, n ≤ 3 ∧
      scheduleBeatsAux ((0 : ℚ) + 1) (1/2) 10 3 0 [] =
        (3 - n, (0 : ℚ) + (n : ℚ) * (1/2),
         [] ++ (List.range n).map
           (fun (i : ℕ) => (⟨(0 : ℚ) + (i : ℚ) * (1/2),
             ((10 : ℕ) : ℤ) - ((3 : ℕ) : ℤ) + 1 + (i : ℤ)⟩ : Beat)), n) ∧
      (∀ i < n, (0 : ℚ) + (i : ℚ) * (1/2) < 0 + 1) ∧
      (3 - n = 0 ∨ ¬ ((0 : ℚ) + (n : ℚ) * (1/2) < 0 + 1)) :=
  C6_fill_contract 0 1 (1/2) 10 3 0 [] (by norm_num)

/-- C7: the fill loop terminates on every input — it is structurally
recursive on the countdown, and the number of iterations it performs is
bounded by the countdown on entry, for every schedule-end time (hence for
arbitrarily large lookahead windows relative to the beat interval). -/
theorem C7_fill_bounded (endT interval : ℚ) (orig c : ℕ) (t : ℚ)
    (q : List Beat) :
    (scheduleBeatsAux endT interval orig c t q).2.2.2 ≤ c := by
  obtain ⟨n, hn, heq, -, -⟩ := scheduleBeatsAux_spec endT interval orig c t q
  rw [heq]
  exact hn

/-- C8 amended: in every state reachable from a **single** session start by
frames (fill + release), tempo changes, suppression, stop, resume and
duration ticks, the pending queue never holds two beats with the same index
(indices are in fact strictly increasing), the queue is strictly ascending
in scheduled time, events are drained strictly from the head exactly when
`scheduledTime <= now`, and the released events are strictly increasing in
scheduled time.  (Restarting a stopped session with a second `start` is
excluded: `stopCountdown` does not clear the queues, so a restart can
transiently leave a stale beat whose index duplicates a new one — see the
counterexample.) -/
theorem C8_queue_invariant (s : SchedulerRun) (h : Reach s) :
    s.st.scheduledBeats.Pairwise (fun a b => a.beatNumber ≠ b.beatNumber) ∧
    s.st.scheduledBeats.Pairwise (fun a b => a.time < b.time) ∧
    (∀ now, drainDue now s.st.scheduledBeats =
      (s.st.scheduledBeats.takeWhile (fun b => decide (b.time ≤ now)),
       s.st.scheduledBeats.dropWhile (fun b => decide (b.time ≤ now)))) ∧
    s.released.Pairwise (fun a b => a.time < b.time) := by
  have hi := reach_inv h
  exact ⟨List.Pairwise.imp (fun hlt => ne_of_lt hlt) hi.q_idx, hi.q_times,
    fun now => drainDue_eq now _, hi.rel_times⟩

/-- C8 witness: the invariant at the reachable state reached by
`start(1, 60)` at clock 0 followed by one frame at clock 0.6. -/
theorem C8_queue_invariant_witness :
    (schedulerLoop (3/5) (startSys 1 60 0)).st.scheduledBeats.Pairwise
      (fun a b => a.beatNumber ≠ b.beatNumber) ∧
    (schedulerLoop (3/5) (startSys 1 60 0)).st.scheduledBeats.Pairwise
      (fun a b => a.time < b.time) ∧
    (∀ now, drainDue now (schedulerLoop (3/5) (startSys 1 60 0)).st.scheduledBeats =
      ((schedulerLoop (3/5) (startSys 1 60 0)).st.scheduledBeats.takeWhile
        (fun b => decide (b.time ≤ now)),
       (schedulerLoop (3/5) (startSys 1 60 0)).st.scheduledBeats.dropWhile
        (fun b => decide (b.time ≤ now)))) ∧
    (schedulerLoop (3/5) (startSys 1 60 0)).released.Pairwise
      (fun a b => a.time < b.time) :=
  C8_queue_invariant _ (Reach.frame (3/5)
    (Reach.start 1 60 0 (by norm_num) (by norm_num)
      (by norm_num [MIN_BPM]) (by norm_num [MAX_BPM]))
    (show (startSys 1 60 0).lastNow < 3/5 by
      rw [startSys_eval]; norm_num))

/-- C8 counterexample: the claim as stated also admits a second `start`
after `stop` among its operations; since `stopCountdown` leaves the queues
in place, `start(1,60)@0; stop; start(1,60)@2` yields a pending queue
`[{time 0, index 1}, {time 2, index 1}]` containing two beats with the same
index. -/
theorem C8_counterexample :
    (startCountdown 1 60 2 (stopCountdown (startCountdown 1 60 0
      initTimerState))).scheduledBeats = [⟨0, 1⟩, ⟨2, 1⟩] ∧
    ¬ ((startCountdown 1 60 2 (stopCountdown (startCountdown 1 60 0
      initTimerState))).scheduledBeats.Pairwise
        (fun a b => a.beatNumber ≠ b.beatNumber)) := by
  refine ⟨restart_eval, ?_⟩
  rw [restart_eval]
  intro hp
  exact (List.pairwise_cons.mp hp).1 ⟨2, 1⟩ (by simp) rfl

/-- C9: `multiplyBpm` doubles the current BPM and `divideBpm` halves it with
JavaScript rounding, and on the reachable tempo range `[MIN_BPM, MAX_BPM]`
both results agree with clamping to `[MIN_BPM, MAX_BPM]`; the operations are
idempotent at the boundaries (`multiplyBpm` at 200 returns 200, `divideBpm`
at 30 returns 30), and `multiplyBpm` at 150 returns 200, not 300. -/
theorem C9_mult_div (now : ℚ) (st : TimerState)
    (hb1 : MIN_BPM ≤ st.bpm) (hb2 : st.bpm ≤ MAX_BPM) :
    (multiplyBpm now st).1 = jsClamp MIN_BPM MAX_BPM (st.bpm * 2) ∧
    (divideBpm now st).1 =
      jsClamp MIN_BPM MAX_BPM ((jsRound (st.bpm / 2) : ℤ) : ℚ) ∧
    (st.bpm = MAX_BPM → (multiplyBpm now st).1 = MAX_BPM) ∧
    (st.bpm = MIN_BPM → (divideBpm now st).1 = MIN_BPM) ∧
    (st.bpm = 150 → (multiplyBpm now st).1 = 200) := by
  have h30 : (30 : ℚ) ≤ st.bpm := hb1
  have h200 : st.bpm ≤ (200 : ℚ) := hb2
  have hrle : ((jsRound (st.bpm / 2) : ℤ) : ℚ) ≤ 200 := by
    have h1 : st.bpm / 2 + 1/2 ≤ (201 : ℚ)/2 := by linarith
    have h2 : jsRound (st.bpm / 2) ≤ ⌊(201 : ℚ)/2⌋ :=
      Int.floor_le_floor h1
    have h3 : ⌊(201 : ℚ)/2⌋ = 100 := by norm_num
    have h4 : jsRound (st.bpm / 2) ≤ 100 := by omega
    have h5 : ((jsRound (st.bpm / 2) : ℤ) : ℚ) ≤ ((100 : ℤ) : ℚ) := by
      exact_mod_cast h4
    linarith [h5]
  refine ⟨?_, ?_, ?_, ?_, ?_⟩
  · show min 200 (st.bpm * 2) = jsClamp MIN_BPM MAX_BPM (st.bpm * 2)
    unfold jsClamp MIN_BPM MAX_BPM
    rw [max_eq_right (le_min (by norm_num) (by linarith))]
  · show max 30 ((jsRound (st.bpm / 2) : ℤ) : ℚ) =
      jsClamp MIN_BPM MAX_BPM ((jsRound (st.bpm / 2) : ℤ) : ℚ)
    unfold jsClamp MIN_BPM MAX_BPM
    rw [min_eq_right hrle]
  · intro h
    show min 200 (st.bpm * 2) = MAX_BPM
    rw [h]
    unfold MAX_BPM
    norm_num
  · intro h
    show max 30 ((jsRound (st.bpm / 2) : ℤ) : ℚ) = MIN_BPM
    rw [h]
    unfold MIN_BPM jsRound
    norm_num
  · intro h
    show min 200 (st.bpm * 2) = 200
    rw [h]
    norm_num

/-- C9 witness: the scenario `multiplyBpm` at `bpm = 150` with `MAX = 200`
yields 200. -/
theorem C9_mult_div_witness :
    (multiplyBpm 0 { initTimerState with bpm := 150 }).1 = 200 :=
  (C9_mult_div 0 { initTimerState with bpm := 150 }
    (by norm_num [MIN_BPM, initTimerState]) (by norm_num [MAX_BPM, initTimerState])).2.2.2.2 rfl

/-- C10 amended: `stopCountdown` is idempotent — a second call on an
already-stopped session changes nothing — and `resumeCountdown` is a no-op
exactly when `countdown = 0` (its only guard).  Calling `resumeCountdown`
while the session is already running is **not** a no-op: it re-initializes
the schedule (clears the queues, resets `nextBeatTime` to now, and consumes
a beat by refilling), as the counterexample shows; only the app-level
toggle, which calls resume exclusively when stopped, prevents this. -/
theorem C10_stop_resume (st : TimerState) (now : ℚ) :
    stopCountdown (stopCountdown st) = stopCountdown st ∧
    (st.countdown = 0 → resumeCountdown now st = st) := by
  constructor
  · rfl
  · intro h
    unfold resumeCountdown
    rw [if_neg (by omega)]

/-- C10 witness: stop twice from the constructor state, and resume with an
exhausted countdown. -/
theorem C10_stop_resume_witness :
    stopCountdown (stopCountdown initTimerState) = stopCountdown initTimerState ∧
    resumeCountdown 0 initTimerState = initTimerState :=
  ⟨(C10_stop_resume initTimerState 0).1,
   (C10_stop_resume initTimerState 0).2 rfl⟩

/-- C10 counterexample: in the running session produced by `start(1, 60)` at
clock 0, calling `resumeCountdown` at clock 0.3 — while already running —
changes observable state: the countdown drops from 59 to 58 (the refill
consumes a beat), so resume is not idempotent on a running session. -/
theorem C10_counterexample :
    (startSys 1 60 0).st.isRunning = true ∧
    (resumeCountdown (3/10) (startSys 1 60 0).st).countdown = 58 ∧
    (startSys 1 60 0).st.countdown = 59 ∧
    resumeCountdown (3/10) (startSys 1 60 0).st ≠ (startSys 1 60 0).st := by
  have h58 : (resumeCountdown (3/10) (startSys 1 60 0).st).countdown = 58 :=
    resume_eval
  have h59 : (startSys 1 60 0).st.countdown = 59 := by
    rw [startSys_eval]
  refine ⟨rfl, h58, h59, ?_⟩
  intro heq
  rw [heq, h59] at h58
  exact absurd h58 (by norm_num)
